import Mathlib

/-!
Verification of the trip optimization-and-assembly engine of the
EdwinCapstone travel-planning repository.

The development shallowly embeds the relevant JavaScript source:

* `buildDateRange` and the date handling of `ItineraryPage.jsx`
  (calendar dates are modelled as day numbers `Nat`; the free-text date
  parser is an external collaborator, so a date input is an `Option Nat`,
  `none` meaning null or unparseable);
* `createDayByDayItinerary` (the current copy, `ItineraryPage.jsx`
  lines 1573-2137) and the legacy copy of the same function
  (lines 3844-4057);
* `recordMustDoActivities` and the must-do merge of `recordTripSelection`
  from `utils/tripState.js`;
* `extractPrice` from the cost-aggregation section of `ItineraryPage.jsx`;
* the budget-constrained candidate selector of the
  `/api/generateOptimalItinerary` endpoint, whose implementation is not
  part of the repository sources and is therefore modelled from the
  specification text.

JavaScript strings are modelled as Lean `String`; an absent string field
is modelled as the empty string, which is interchangeable with `undefined`
under the `x || y` and `(x || '').toLowerCase()` patterns the embedded
code uses.
-/

/-- Infix search on character lists: `charsContain hay needle` is true when
`needle` occurs contiguously inside `hay`.  This is the semantic core of the
JavaScript `String.prototype.includes`. -/
def charsContain : List Char → List Char → Bool
  | [], needle => needle.isEmpty
  | c :: rest, needle => needle.isPrefixOf (c :: rest) || charsContain rest needle

/-- Models the JavaScript `s.includes(sub)`. -/
def jsIncludes (s sub : String) : Bool :=
  charsContain s.data sub.data

/-- Models the JavaScript `a || b` on strings, where the empty string (and an
absent field, which we model as the empty string) is falsy. -/
def jsOrString (a b : String) : String :=
  if a = "" then b else a

/-- The `buildDateRange` helper of `ItineraryPage.jsx` (lines 1552-1571).
If the start date does not parse it returns the empty list.  Otherwise the
end date defaults to the start date when it is absent or unparseable, and the
function collects every day from start to end inclusive (empty when the end
day lies strictly before the start day, mirroring the `while` loop). -/
def buildDateRange (startDate endDate : Option Nat) : List Nat :=
  match startDate with
  | none => []
  | some start =>
    let endDateObj := endDate.getD start
    (List.range (endDateObj + 1 - start)).map (fun i => start + i)

/-- Models the JavaScript `s.toLowerCase()` (the embedded code only ever
lowercases ASCII text, where `Char.toLower` agrees with JavaScript).
Defined by mapping over the character list so that it evaluates inside the
kernel. -/
def jsToLower (s : String) : String :=
  ⟨s.data.map Char.toLower⟩

/-- Models the JavaScript `s.trim()`: strip whitespace from both ends.
Defined on the character list so that it evaluates inside the kernel. -/
def jsTrim (s : String) : String :=
  ⟨((s.data.dropWhile Char.isWhitespace).reverse.dropWhile Char.isWhitespace).reverse⟩

/-- A stored must-do activity entry of `utils/tripState.js`.  Only the fields
the deduplication logic touches are modelled; `recordedAt` (a wall-clock
timestamp) is omitted. -/
structure MustDoActivity where
  name : String := ""
  description : String := ""
  deriving Repr, DecidableEq

/-- The body of the `activities.forEach` loop of `recordMustDoActivities`
(`tripState.js` lines 240-250): skip entries with a falsy or
whitespace-only name, reject an incoming activity whose case-insensitive
trimmed name equals the name of an existing entry, and append it otherwise. -/
def mustDoInsert (existing : List MustDoActivity) (activity : MustDoActivity) : List MustDoActivity :=
  if activity.name = "" then existing
  else if jsTrim activity.name = "" then existing
  else if existing.any (fun entry => jsToLower entry.name == jsToLower (jsTrim activity.name)) then existing
  else existing ++ [{ activity with name := jsTrim activity.name }]

/-- `recordMustDoActivities` of `tripState.js` (lines 233-256), restricted to
the must-do list it reads and writes. -/
def recordMustDoActivities (state activities : List MustDoActivity) : List MustDoActivity :=
  if activities.isEmpty then state
  else activities.foldl mustDoInsert state

/-- The body of the `options.mustDoActivities.forEach` loop of
`recordTripSelection` (`tripState.js` lines 156-164): same deduplication but
without trimming the incoming name. -/
def selectionMustDoInsert (combined : List MustDoActivity) (activity : MustDoActivity) : List MustDoActivity :=
  if activity.name = "" then combined
  else if combined.any (fun existing => jsToLower existing.name == jsToLower activity.name) then combined
  else combined ++ [activity]

/-- The must-do merge performed by `recordTripSelection` (`tripState.js`
lines 154-166). -/
def recordTripSelectionMustDos (state incoming : List MustDoActivity) : List MustDoActivity :=
  incoming.foldl selectionMustDoInsert state

/-- No two stored entries share a case-insensitive name. -/
def namesDistinct (l : List MustDoActivity) : Prop :=
  l.Pairwise (fun x y => jsToLower x.name ≠ jsToLower y.name)

/-- A JavaScript value found in a `price` field, as distinguished by the
`typeof` checks of `extractPrice` (`ItineraryPage.jsx` lines 2247-2255).
JavaScript numbers are modelled as rationals.  An object price carries the
optional numeric fields `amount`, `total` and `value`. -/
inductive JsPrice where
  | nullVal
  | undef
  | num (q : ℚ)
  | str (s : String)
  | obj (amount total value : Option ℚ)
  deriving Repr, DecidableEq

/-- An item handed to cost aggregation; only its `price` field is read. -/
structure CostItem where
  price : JsPrice
  deriving Repr, DecidableEq

/-- Models JavaScript `x || d` for a possibly-absent numeric field:
`undefined` and `0` are falsy. -/
def jsOrNum (x : Option ℚ) (d : ℚ) : ℚ :=
  match x with
  | none => d
  | some q => if q = 0 then d else q

/-- Models the JavaScript `parseFloat` on decimal literals: an optional
sign, integer digits, and an optional fractional part; `none` models the
`NaN` result when no leading digits can be parsed.  Exponents and leading
whitespace are not exercised by the embedded code and are not modelled. -/
def parseFloatQ (s : String) : Option ℚ :=
  let signAndRest : ℚ × List Char :=
    match s.data with
    | '-' :: cs => (-1, cs)
    | '+' :: cs => (1, cs)
    | cs => (1, cs)
  let intDigits := signAndRest.2.takeWhile Char.isDigit
  let rest := signAndRest.2.dropWhile Char.isDigit
  let fracDigits :=
    match rest with
    | '.' :: cs => cs.takeWhile Char.isDigit
    | _ => []
  let digitsVal : List Char → Nat := fun ds => ds.foldl (fun acc c => acc * 10 + (c.toNat - 48)) 0
  if intDigits.isEmpty && fracDigits.isEmpty then none
  else some (signAndRest.1 *
    ((digitsVal intDigits : ℚ) + (digitsVal fracDigits : ℚ) / (10 : ℚ) ^ fracDigits.length))

/-- The `extractPrice` helper of `ItineraryPage.jsx` (lines 2247-2255).
A missing item yields 0; a numeric price is returned as-is; an object price
resolves `amount`, then `total`, then `value` under JavaScript truthiness,
defaulting to 0; any other price is run through `parseFloat`, with `NaN`
coerced to 0.  A `null` price satisfies the JavaScript `typeof ... ===
object` test and then throws a `TypeError` on the `.amount` access, which is
modelled as `Except.error`. -/
def extractPrice (item : Option CostItem) : Except Unit ℚ :=
  match item with
  | none => .ok 0
  | some it =>
    match it.price with
    | .num q => .ok q
    | .nullVal => .error ()
    | .obj amount total value => .ok (jsOrNum amount (jsOrNum total (jsOrNum value 0)))
    | .str s => .ok ((parseFloatQ s).getD 0)
    | .undef => .ok 0

/-- All numeric components of a price are non-negative. -/
def nonnegComponents : JsPrice → Prop
  | .num q => 0 ≤ q
  | .obj a t v => (∀ q, a = some q → 0 ≤ q) ∧ (∀ q, t = some q → 0 ≤ q) ∧
      (∀ q, v = some q → 0 ≤ q)
  | .str s => 0 ≤ (parseFloatQ s).getD 0
  | .nullVal => True
  | .undef => True

/-- Modelled from the spec: the implementation of the
`/api/generateOptimalItinerary` backend endpoint (the CandidateSelector) is
not part of the repository sources — only its API documentation
(`amadeus_api.md`) and its frontend callers are — so the selector is
modelled from the specification text.  A scored candidate carries its price
and its composite `total` score. -/
structure ScoredCandidate where
  price : ℚ
  total : ℚ
  deriving Repr, DecidableEq

/-- Modelled from the spec: a transport-lodging-activity combination; a slot
is `none` exactly when its candidate pool is empty. -/
structure Combination where
  flight : Option ScoredCandidate
  hotel : Option ScoredCandidate
  activity : Option ScoredCandidate
  deriving Repr, DecidableEq

/-- Modelled from the spec: the options a pool contributes to the Cartesian
product — `none` when the pool is empty, otherwise one entry per candidate. -/
def slotOptions (pool : List ScoredCandidate) : List (Option ScoredCandidate) :=
  match pool with
  | [] => [none]
  | _ => pool.map some

/-- Modelled from the spec: the enumeration of all transport-lodging-activity
combinations. -/
def allCombinations (flights hotels activities : List ScoredCandidate) : List Combination :=
  (slotOptions flights).flatMap fun f =>
    (slotOptions hotels).flatMap fun h =>
      (slotOptions activities).map fun a => { flight := f, hotel := h, activity := a }

/-- Modelled from the spec: a null slot is excluded from the price sum. -/
def combinationPrice (c : Combination) : ℚ :=
  (c.flight.map ScoredCandidate.price).getD 0 + (c.hotel.map ScoredCandidate.price).getD 0 +
    (c.activity.map ScoredCandidate.price).getD 0

/-- Modelled from the spec: the mean of the composite `total` scores of the
present slots (a null slot is excluded from scoring). -/
def combinationScore (c : Combination) : ℚ :=
  let totals := ([c.flight, c.hotel, c.activity].filterMap id).map ScoredCandidate.total
  totals.sum / (totals.length : ℚ)

/-- Modelled from the spec: strict preference between combinations — higher
mean composite score, with ties broken by lower summed price. -/
def betterCombination (a b : Combination) : Bool :=
  combinationScore b < combinationScore a ||
    (combinationScore a == combinationScore b && combinationPrice a < combinationPrice b)

/-- Modelled from the spec: filter the enumerated combinations to those with
summed price within the user budget, then keep the best one under
`betterCombination`; `none` models the `NoCombinationWithinBudget` failure. -/
def selectBestCombination (flights hotels activities : List ScoredCandidate)
    (userBudget : ℚ) : Option Combination :=
  match (allCombinations flights hotels activities).filter
      (fun c => combinationPrice c ≤ userBudget) with
  | [] => none
  | c :: rest => some (rest.foldl (fun best cand =>
      if betterCombination cand best then cand else best) c)

/-- The non-strict counterpart of `betterCombination`: `a` scores no better
than `b`, and no cheaper at equal score. -/
def scoreLe (a b : Combination) : Prop :=
  combinationScore a < combinationScore b ∨
    (combinationScore a = combinationScore b ∧ combinationPrice b ≤ combinationPrice a)

/-- Scenario C flight candidate priced 500. -/
def f500 : ScoredCandidate := { price := 500, total := 1/5 }

/-- Scenario C flight candidate priced 650. -/
def f650 : ScoredCandidate := { price := 650, total := 9/10 }

/-- Scenario C flight candidate priced 900, scoring highest on quality. -/
def f900 : ScoredCandidate := { price := 900, total := 1 }

/-- Scenario C hotel candidate priced 150. -/
def h150 : ScoredCandidate := { price := 150, total := 4/5 }

/-- Scenario C activity candidate priced 50. -/
def a50 : ScoredCandidate := { price := 50, total := 4/5 }

/-- A flight as consumed by `createDayByDayItinerary`; only the fields the
dummy-data checks read are modelled. -/
structure Flight where
  id : String := ""
  flightNumber : String := ""
  airline : String := ""
  deriving Repr, DecidableEq

/-- A hotel as consumed by `createDayByDayItinerary`. -/
structure Hotel where
  name : String := ""
  isDummy : Bool := false
  deriving Repr, DecidableEq

/-- An activity (regular or must-do) as consumed by
`createDayByDayItinerary`; `typeField` models the `type` property used by
the `category || type` fallbacks. -/
structure Activity where
  name : String := ""
  category : String := ""
  typeField : String := ""
  duration : String := ""
  minimumDuration : String := ""
  deriving Repr, DecidableEq

/-- The user preferences read from trip state: the guided-tour flag and the
preferred category list. -/
structure TripPreferences where
  guidedTour : Bool := false
  categories : List String := []
  deriving Repr, DecidableEq

/-- An itinerary item as pushed by `createDayByDayItinerary`, distinguished
by its `type` field together with the `isMustDo` and `isOpenExploration`
flags and its title.  `flightNeeded` and `returnFlightNeeded` are the
transport placeholders (pushed with `type: activity` and titles
`Flight Needed` and `Return Flight Needed`). -/
inductive ItineraryItem where
  | flightItem (f : Flight)
  | flightNeeded
  | hotelCheckIn (h : Hotel)
  | mustDoItem (a : Activity) (time : String)
  | activityItem (a : Activity) (time : String)
  | openExploration
  | hotelOvernight (h : Hotel)
  | returnFlightItem (f : Flight)
  | returnFlightNeeded
  deriving Repr, DecidableEq

/-- The `time` field of an item (flight departure times are not modelled and
appear as the empty string; they are never read by the slot logic). -/
def itemTime : ItineraryItem → String
  | .flightItem _ => ""
  | .flightNeeded => "Morning"
  | .hotelCheckIn _ => "Check-in"
  | .mustDoItem _ t => t
  | .activityItem _ t => t
  | .openExploration => "All Day"
  | .hotelOvernight _ => "Overnight"
  | .returnFlightItem _ => ""
  | .returnFlightNeeded => "All Day"

/-- Models `item.type === 'activity'` (the transport placeholders are pushed
with type `activity`). -/
def isActivityType : ItineraryItem → Bool
  | .mustDoItem _ _ => true
  | .activityItem _ _ => true
  | .openExploration => true
  | .flightNeeded => true
  | .returnFlightNeeded => true
  | _ => false

/-- Models `item.isOpenExploration`. -/
def isOpenExplorationItem : ItineraryItem → Bool
  | .openExploration => true
  | _ => false

/-- One day of the assembled itinerary: the 1-based day number assigned
after sorting (0 models the `null` it holds before numbering), the calendar
date, the item list, and the `hasOpenExploration` flag set on interior
days. -/
structure ItineraryDay where
  day : Nat := 0
  dateObj : Nat
  items : List ItineraryItem
  hasOpenExploration : Bool := false
  deriving Repr, DecidableEq

/-- The `getAvailableSlot` helper nested in `getTimeSlotForCategory`
(`ItineraryPage.jsx` lines 1669-1688). -/
def getAvailableSlot (existingSlots : List String) (preferred : String) : String :=
  if !existingSlots.contains preferred then preferred
  else
    let alternatives : List String :=
      if preferred = "Morning" then ["Afternoon", "Evening"]
      else if preferred = "Afternoon" then ["Morning", "Evening"]
      else if preferred = "Evening" then ["Afternoon", "Morning"]
      else if preferred = "Lunch" then ["Afternoon", "Morning"]
      else if preferred = "Dinner" then ["Evening", "Afternoon"]
      else ["Morning", "Afternoon", "Evening"]
    match alternatives.find? (fun slot => !existingSlots.contains slot) with
    | some slot => slot
    | none => preferred

/-- The `getTimeSlotForCategory` helper (`ItineraryPage.jsx` lines
1664-1713): category keywords, then duration keywords, then round-robin by
item index. -/
def getTimeSlotForCategory (category duration : String) (index : Nat)
    (existingSlots : List String) : String :=
  let categoryLower := jsToLower category
  let durationStr := jsToLower duration
  if jsIncludes categoryLower "nightlife" || jsIncludes categoryLower "dinner" ||
      jsIncludes categoryLower "evening" || jsIncludes categoryLower "night" then
    getAvailableSlot existingSlots "Evening"
  else if jsIncludes categoryLower "lunch" || jsIncludes categoryLower "restaurant" ||
      jsIncludes categoryLower "dining" || jsIncludes categoryLower "food" then
    getAvailableSlot existingSlots "Lunch"
  else if jsIncludes categoryLower "breakfast" || jsIncludes categoryLower "morning" ||
      jsIncludes categoryLower "museum" || jsIncludes categoryLower "gallery" then
    getAvailableSlot existingSlots "Morning"
  else if jsIncludes categoryLower "afternoon" || jsIncludes categoryLower "tour" ||
      jsIncludes categoryLower "walking" then
    getAvailableSlot existingSlots "Afternoon"
  else if jsIncludes durationStr "4" || jsIncludes durationStr "5" ||
      jsIncludes durationStr "6" || jsIncludes durationStr "full" then
    getAvailableSlot existingSlots "Morning"
  else
    getAvailableSlot existingSlots (["Morning", "Afternoon", "Evening"].getD (index % 3) "Morning")

/-- Models the dummy-flight test of `ItineraryPage.jsx` line 1719: the
flight is real when its id, number and airline differ from the dummy
markers. -/
def flightIsReal (f : Flight) : Bool :=
  f.id != "dummy-flight" && f.flightNumber != "FL123" && f.airline != "Airline"

/-- The day-1 item list (`ItineraryPage.jsx` lines 1717-1785): the outbound
flight or the `Flight Needed` placeholder, then a hotel check-in when a
non-dummy hotel is present. -/
def day1ItemsOf (flight : Option Flight) (hotel : Option Hotel) : List ItineraryItem :=
  (match flight with
   | some f => if flightIsReal f then [ItineraryItem.flightItem f] else [ItineraryItem.flightNeeded]
   | none => [ItineraryItem.flightNeeded]) ++
  (match hotel with
   | some h => if !h.isDummy then [ItineraryItem.hotelCheckIn h] else []
   | none => [])

/-- The last-day item list of a round trip (`ItineraryPage.jsx` lines
2011-2125): the return flight, or the `Return Flight Needed` placeholder
when the return flight is missing or dummy. -/
def lastDayItemsOf (returnFlight : Option Flight) : List ItineraryItem :=
  match returnFlight with
  | none => [ItineraryItem.returnFlightNeeded]
  | some rf =>
    if flightIsReal rf then [ItineraryItem.returnFlightItem rf]
    else [ItineraryItem.returnFlightNeeded]

/-- The must-do name test used to exclude must-dos from the regular pool
(`ItineraryPage.jsx` lines 1824-1830): case-insensitive trimmed equality or
substring containment in either direction. -/
def mustDoNameMatches (mustDos : List Activity) (act : Activity) : Bool :=
  let actName := jsTrim (jsToLower act.name)
  mustDos.any fun mustDo =>
    let mustDoName := jsTrim (jsToLower mustDo.name)
    actName == mustDoName || jsIncludes actName mustDoName || jsIncludes mustDoName actName

/-- The preference filter on regular activities (`ItineraryPage.jsx` lines
1851-1872); `none` models an absent or empty preferences object, which lets
everything through. -/
def preferenceFilterPasses (preferences : Option TripPreferences) (act : Activity) : Bool :=
  match preferences with
  | none => true
  | some p =>
    let actCategory := jsToLower (jsOrString act.category act.typeField)
    let preferredCategories := p.categories.map jsToLower
    if p.guidedTour && (jsIncludes actCategory "tour" || jsIncludes actCategory "guided") then
      true
    else if preferredCategories.length > 0 then
      preferredCategories.any fun prefCat =>
        jsIncludes actCategory prefCat || jsIncludes (jsToLower act.name) prefCat
    else true

/-- The must-do distribution plan (`ItineraryPage.jsx` lines 1833-1846): for
each interior day in order, take the next `min 2 remaining` must-dos.  The
source pushes a slice of length `Math.min(2, remaining)` and otherwise an
empty list, which coincides with `take 2` of the remaining list. -/
def mustDoDistribution : List Activity → Nat → List (List Activity)
  | _, 0 => []
  | ms, n + 1 => ms.take 2 :: mustDoDistribution (ms.drop 2) n

/-- The `mustDoForDay.forEach` push loop (`ItineraryPage.jsx` lines
1884-1927): each must-do is appended as a must-do activity item whose time
slot avoids the slots already used on that day. -/
def pushMustDoItems : List ItineraryItem → Nat → List Activity → List ItineraryItem
  | items, _, [] => items
  | items, idx, m :: rest =>
    let timeSlot := getTimeSlotForCategory (jsOrString m.category m.typeField) m.duration idx
      (items.map itemTime)
    pushMustDoItems (items ++ [ItineraryItem.mustDoItem m timeSlot]) (idx + 1) rest

/-- The `dayActivities.forEach` push loop (`ItineraryPage.jsx` lines
1937-1964) for regular activities. -/
def pushRegularItems : List ItineraryItem → Nat → List Activity → List ItineraryItem
  | items, _, [] => items
  | items, idx, a :: rest =>
    let timeSlot := getTimeSlotForCategory (jsOrString a.category a.typeField)
      (jsOrString a.minimumDuration a.duration) idx (items.map itemTime)
    pushRegularItems (items ++ [ItineraryItem.activityItem a timeSlot]) (idx + 1) rest

/-- The hotel-overnight append at the end of an interior day
(`ItineraryPage.jsx` lines 1984-1997). -/
def hotelAppend (hotel : Option Hotel) (items : List ItineraryItem) : List ItineraryItem :=
  match hotel with
  | some h => if !h.isDummy then items ++ [ItineraryItem.hotelOvernight h] else items
  | none => items

/-- The item list of one interior day (`ItineraryPage.jsx` lines
1874-1997): must-dos first, then regular activities up to the 2-item cap by
even slicing, then the `Open Exploration` card when no activity was placed,
then the hotel overnight item. -/
def middleDayItems (hotel : Option Hotel) (mustDoForDay filteredRegulars : List Activity)
    (actualMiddleDays dayIndex : Nat) : List ItineraryItem :=
  let dayItems := pushMustDoItems [] 0 mustDoForDay
  let remainingSlots := 2 - dayItems.length
  let dayItems :=
    if remainingSlots > 0 && filteredRegulars.length > 0 && actualMiddleDays > 0 then
      let activitiesPerDay := (filteredRegulars.length + actualMiddleDays - 1) / actualMiddleDays
      let startIdx := dayIndex * activitiesPerDay
      let endIdx := min (startIdx + remainingSlots) filteredRegulars.length
      pushRegularItems dayItems 0 ((filteredRegulars.take endIdx).drop startIdx)
    else dayItems
  let hasActivities := dayItems.any fun item => isActivityType item && !isOpenExplorationItem item
  let dayItems := if !hasActivities then dayItems ++ [ItineraryItem.openExploration] else dayItems
  hotelAppend hotel dayItems

/-- One interior day (`ItineraryPage.jsx` lines 1874-2006). -/
def buildMiddleDay (hotel : Option Hotel) (mustDoForDay filteredRegulars : List Activity)
    (actualMiddleDays dayIndex currentDate : Nat) : ItineraryDay :=
  { dateObj := currentDate,
    items := middleDayItems hotel mustDoForDay filteredRegulars actualMiddleDays dayIndex,
    hasOpenExploration := (middleDayItems hotel mustDoForDay filteredRegulars actualMiddleDays
      dayIndex).any isOpenExplorationItem }

/-- The day-number assignment after sorting (`ItineraryPage.jsx` lines
2131-2133): `day := index + 1`. -/
def numberDays : List ItineraryDay → Nat → List ItineraryDay
  | [], _ => []
  | d :: ds, i => { d with day := i + 1 } :: numberDays ds (i + 1)

/-- The inputs of `createDayByDayItinerary`.  The start and end dates are
the already-resolved values of the trip-state-then-parameter parse chain
(`ItineraryPage.jsx` lines 1586-1636); `none` means null or unparseable. -/
structure AssembleInput where
  flight : Option Flight := none
  hotel : Option Hotel := none
  allActivities : List Activity := []
  mustDoActivities : List Activity := []
  preferences : Option TripPreferences := none
  startDate : Option Nat := none
  endDate : Option Nat := none
  returnFlight : Option Flight := none
  deriving Repr

/-- The regular activity pool: all activities whose names do not match a
must-do (`ItineraryPage.jsx` lines 1824-1830). -/
def regularActivitiesOf (inp : AssembleInput) : List Activity :=
  inp.allActivities.filter fun act => !(mustDoNameMatches inp.mustDoActivities act)

/-- The preference-filtered regular pool (`ItineraryPage.jsx` lines
1851-1872). -/
def filteredRegularActivitiesOf (inp : AssembleInput) : List Activity :=
  (regularActivitiesOf inp).filter (preferenceFilterPasses inp.preferences)

/-- The current copy of `createDayByDayItinerary` (`ItineraryPage.jsx` lines
1573-2137).  Throws (models `Except.error`) exactly when the start date
cannot be resolved; the end date falls back to the start date; day 1 is
pushed for a non-empty date range, interior days for every date strictly
inside the range, and the return-flight day for a round trip; finally the
days are sorted by date and numbered 1..N. -/
def createDayByDayItinerary (inp : AssembleInput) : Except String (List ItineraryDay) :=
  match inp.startDate with
  | none => .error "Invalid start date"
  | some startDateObj =>
    let endDateObj := inp.endDate.getD startDateObj
    let dateRange := buildDateRange (some startDateObj) (some endDateObj)
    let daysDiff := dateRange.length
    let isRoundTrip := endDateObj != startDateObj
    let days : List ItineraryDay :=
      match dateRange.head? with
      | some d0 => [{ dateObj := d0, items := day1ItemsOf inp.flight inp.hotel }]
      | none => []
    let days :=
      if daysDiff > 1 then
        let middleDays := if isRoundTrip then (dateRange.drop 1).dropLast else dateRange.drop 1
        let actualMiddleDays := middleDays.length
        let dist := mustDoDistribution inp.mustDoActivities actualMiddleDays
        let filteredRegulars := filteredRegularActivitiesOf inp
        days ++ (List.range middleDays.length).map fun i =>
          buildMiddleDay inp.hotel (dist.getD i []) filteredRegulars actualMiddleDays i
            (middleDays.getD i 0)
      else days
    let days :=
      if isRoundTrip then
        match dateRange.getLast? with
        | some lastDate =>
          days ++ [{ dateObj := lastDate, items := lastDayItemsOf inp.returnFlight }]
        | none => days
      else days
    .ok (numberDays (days.insertionSort (fun a b => a.dateObj ≤ b.dateObj)) 0)

/-- The activity push loop of the legacy copy (`ItineraryPage.jsx` lines
3956-3971): the first activity of a day is `Morning`, the rest
`Afternoon`. -/
def legacyActivityItems : List Activity → Nat → List ItineraryItem
  | [], _ => []
  | a :: rest, idx =>
    ItineraryItem.activityItem a (if idx = 0 then "Morning" else "Afternoon") ::
      legacyActivityItems rest (idx + 1)

/-- The legacy copy of `createDayByDayItinerary` (`ItineraryPage.jsx` lines
3844-4057): no must-do handling, day 1 always carries a flight item, the
interior days are capped at 5 (dates beyond the cap are skipped), and the
return-flight day always carries a flight item. -/
def legacyCreateDayByDayItinerary (flight : Option Flight) (hotel : Option Hotel)
    (allActivities : List Activity) (startDate endDate : Option Nat)
    (returnFlight : Option Flight) : Except String (List ItineraryDay) :=
  match startDate with
  | none => .error "Invalid start date"
  | some startDateObj =>
    let endDateObj := endDate.getD startDateObj
    let isRoundTrip := endDateObj != startDateObj
    let daysDiff := if isRoundTrip then max 1 (endDateObj - startDateObj) else 1
    let day1Items := [ItineraryItem.flightItem (flight.getD {})] ++
      (match hotel with
       | some h => if !h.isDummy then [ItineraryItem.hotelCheckIn h] else []
       | none => [])
    let days : List ItineraryDay := [{ dateObj := startDateObj, items := day1Items }]
    let days :=
      if isRoundTrip && daysDiff > 1 then
        let maxMiddleDays := min (daysDiff - 1) 5
        days ++ (List.range maxMiddleDays).filterMap fun j =>
          let i := j + 1
          let currentDate := startDateObj + i
          if currentDate = endDateObj then none
          else
            let activitiesPerDay := (allActivities.length + maxMiddleDays - 1) / maxMiddleDays
            let startIdx := (i - 1) * activitiesPerDay
            let endIdx := startIdx + activitiesPerDay
            let dayItems := legacyActivityItems ((allActivities.take endIdx).drop startIdx) 0 ++
              (match hotel with
               | some h => if !h.isDummy then [ItineraryItem.hotelOvernight h] else []
               | none => [])
            some { dateObj := currentDate, items := dayItems }
      else days
    let days :=
      if isRoundTrip && decide (startDateObj < endDateObj) then
        let lastDay : ItineraryDay :=
          { dateObj := endDateObj,
            items := [ItineraryItem.returnFlightItem (returnFlight.getD {})] }
        days ++ [lastDay]
      else days
    .ok (numberDays (days.insertionSort (fun a b => a.dateObj ≤ b.dateObj)) 0)

/-- The must-do activities carried by an item list (the items flagged
`isMustDo` in the source), in order. -/
def mustDoActsOf (items : List ItineraryItem) : List Activity :=
  items.filterMap fun item =>
    match item with
    | .mustDoItem a _ => some a
    | _ => none

/-- The regular (non-must-do) activities carried by an item list, in
order. -/
def regularActsOf (items : List ItineraryItem) : List Activity :=
  items.filterMap fun item =>
    match item with
    | .activityItem a _ => some a
    | _ => none

/-- The day list of an assembly result, empty on error. -/
def resultDays (r : Except String (List ItineraryDay)) : List ItineraryDay :=
  r.toOption.getD []

/-- A concrete input for C2: three must-do activities but a window with only
one interior day (dates 0, 1, 2). -/
def inpC2 : AssembleInput :=
  { mustDoActivities := [{ name := "Eiffel Tower" }, { name := "Seine Cruise" },
      { name := "Catacombs" }],
    startDate := some 0, endDate := some 2 }

/-- A concrete input for C3: two must-do activities and two interior days
(dates 0, 1, 2, 3). -/
def inpC3 : AssembleInput :=
  { mustDoActivities := [{ name := "Eiffel Tower" }, { name := "Seine Cruise" }],
    startDate := some 0, endDate := some 3 }

/-- A concrete input for C6: one regular activity, no must-dos, stated
category preferences that match nothing. -/
def inpC6 : AssembleInput :=
  { allActivities := [{ name := "Mountain Hike", category := "hiking" }],
    preferences := some { guidedTour := false, categories := ["museum"] },
    startDate := some 0, endDate := some 2 }

/-- A concrete input for C8: the start date parses but the end date
resolves to an earlier day than the start date. -/
def inpC8 : AssembleInput := { startDate := some 5, endDate := some 3 }

/-- The single scored candidate of the C1 witness pool. -/
def c1Cand : ScoredCandidate := { price := 0, total := 0 }

/-- The combination the C1 witness selects. -/
def c1Combo : Combination := { flight := some c1Cand, hotel := none, activity := none }

theorem buildDateRange_some_some (s e : Nat) :
    buildDateRange (some s) (some e) = (List.range (e + 1 - s)).map (fun i => s + i) := rfl

theorem buildDateRange_decomp (s k : Nat) :
    buildDateRange (some s) (some (s + k)) =
      s :: ((List.range k).map (fun i => s + 1 + i)) := by
  rw [buildDateRange_some_some]
  have h1 : s + k + 1 - s = k + 1 := by omega
  rw [h1, List.range_succ_eq_map, List.map_cons, List.map_map]
  refine congrArg₂ _ (by omega) ?_
  exact List.map_congr_left (fun i _ => by simp [Function.comp]; omega)

theorem buildDateRange_length (s e : Nat) (h : s ≤ e) :
    (buildDateRange (some s) (some e)).length = e - s + 1 := by
  rw [buildDateRange_some_some, List.length_map, List.length_range]
  omega

theorem buildDateRange_pairwise (s e : Nat) :
    (buildDateRange (some s) (some e)).Pairwise (· < ·) := by
  rw [buildDateRange_some_some]
  exact (List.pairwise_lt_range _).map _ (fun a b hab => by omega)

theorem buildDateRange_head (s e : Nat) (h : s ≤ e) :
    (buildDateRange (some s) (some e)).head? = some s := by
  obtain ⟨k, rfl⟩ : ∃ k, e = s + k := ⟨e - s, by omega⟩
  rw [buildDateRange_decomp]
  rfl

theorem buildDateRange_getLast (s e : Nat) (h : s ≤ e) :
    (buildDateRange (some s) (some e)).getLast? = some e := by
  rw [buildDateRange_some_some]
  obtain ⟨k, hk⟩ : ∃ k, e + 1 - s = k + 1 := ⟨e - s, by omega⟩
  rw [hk, List.range_succ, List.map_append, List.map_singleton,
    List.getLast?_concat]
  have : s + k = e := by omega
  rw [this]

theorem buildDateRange_none (s : Nat) :
    buildDateRange (some s) none = [s] := by
  show (List.range (s + 1 - s)).map (fun i => s + i) = [s]
  have h1 : s + 1 - s = 1 := by omega
  rw [h1]
  rfl

/-- C4: for every pair of parseable dates with `end ≥ start`,
`buildDateRange start end` returns a list of exactly `(end − start) + 1`
calendar days in strictly ascending order whose first element is `start` and
whose last element is `end`; when `end` is null or unparseable (`none`) or
equal to `start`, the result is the single-element list `[start]`. -/
theorem c4_buildDateRange_spec :
    (∀ s e : Nat, s ≤ e →
      (buildDateRange (some s) (some e)).length = e - s + 1 ∧
      (buildDateRange (some s) (some e)).Pairwise (· < ·) ∧
      (buildDateRange (some s) (some e)).head? = some s ∧
      (buildDateRange (some s) (some e)).getLast? = some e) ∧
    (∀ s : Nat, buildDateRange (some s) none = [s]) ∧
    (∀ s : Nat, buildDateRange (some s) (some s) = [s]) := by
  refine ⟨fun s e h => ⟨buildDateRange_length s e h, buildDateRange_pairwise s e,
    buildDateRange_head s e h, buildDateRange_getLast s e h⟩,
    buildDateRange_none, fun s => ?_⟩
  have := buildDateRange_decomp s 0
  simpa using this

/-- Witness for C4 at the concrete window 2..5. -/
theorem c4_buildDateRange_spec_witness :
    (buildDateRange (some 2) (some 5)).length = 5 - 2 + 1 ∧
    buildDateRange (some 7) none = [7] :=
  ⟨((c4_buildDateRange_spec.1 2 5 (by decide)).1), c4_buildDateRange_spec.2.1 7⟩

theorem mustDoInsert_preserves {state : List MustDoActivity} (a : MustDoActivity)
    (h : namesDistinct state) : namesDistinct (mustDoInsert state a) := by
  unfold mustDoInsert
  split
  · exact h
  · split
    · exact h
    · split
      · exact h
      · rename_i hname htrim hany
        rw [Bool.not_eq_true, List.any_eq_false] at hany
        rw [namesDistinct, List.pairwise_append]
        refine ⟨h, List.pairwise_singleton _ _, ?_⟩
        intro x hx b hb
        simp only [List.mem_singleton] at hb
        subst hb
        have := hany x hx
        simpa using this

theorem selectionMustDoInsert_preserves {state : List MustDoActivity} (a : MustDoActivity)
    (h : namesDistinct state) : namesDistinct (selectionMustDoInsert state a) := by
  unfold selectionMustDoInsert
  split
  · exact h
  · split
    · exact h
    · rename_i hname hany
      rw [Bool.not_eq_true, List.any_eq_false] at hany
      rw [namesDistinct, List.pairwise_append]
      refine ⟨h, List.pairwise_singleton _ _, ?_⟩
      intro x hx b hb
      simp only [List.mem_singleton] at hb
      subst hb
      have := hany x hx
      simpa using this

theorem foldl_mustDoInsert_preserves (acts : List MustDoActivity) :
    ∀ state, namesDistinct state → namesDistinct (acts.foldl mustDoInsert state) := by
  induction acts with
  | nil => exact fun state h => h
  | cons a rest ih =>
    intro state h
    exact ih _ (mustDoInsert_preserves a h)

theorem foldl_selectionMustDoInsert_preserves (acts : List MustDoActivity) :
    ∀ state, namesDistinct state → namesDistinct (acts.foldl selectionMustDoInsert state) := by
  induction acts with
  | nil => exact fun state h => h
  | cons a rest ih =>
    intro state h
    exact ih _ (selectionMustDoInsert_preserves a h)

/-- C7 counterexample: an incoming must-do whose name strictly contains an
existing name is NOT rejected as a duplicate, so the stored set can hold two
entries whose names are related by containment. -/
theorem c7_containment_counterexample :
    recordMustDoActivities [{ name := "Louvre" }] [{ name := "Louvre Museum" }] =
      [{ name := "Louvre" }, { name := "Louvre Museum" }] ∧
    jsIncludes (jsToLower (jsTrim "Louvre Museum")) (jsToLower (jsTrim "Louvre")) = true := by
  constructor
  · decide
  · decide

/-- C7 amended: an insert into the must-do set is rejected exactly when the
case-insensitive trimmed incoming name equals the case-insensitive name of
an existing entry (substring containment does NOT count as a duplicate);
consequently both insert paths preserve pairwise distinctness of the stored
case-insensitive names, though containment-related names may coexist. -/
theorem c7_mustDo_dedup_exact_name :
    (∀ (state : List MustDoActivity) (a : MustDoActivity), jsTrim a.name ≠ "" →
      ((state.any fun entry => jsToLower entry.name == jsToLower (jsTrim a.name)) = true →
        recordMustDoActivities state [a] = state) ∧
      ((state.any fun entry => jsToLower entry.name == jsToLower (jsTrim a.name)) = false →
        recordMustDoActivities state [a] = state ++ [{ a with name := jsTrim a.name }])) ∧
    (∀ state acts : List MustDoActivity, namesDistinct state →
      namesDistinct (recordMustDoActivities state acts)) ∧
    (∀ state acts : List MustDoActivity, namesDistinct state →
      namesDistinct (recordTripSelectionMustDos state acts)) := by
  refine ⟨?_, ?_, ?_⟩
  · intro state a htrim
    have hname : a.name ≠ "" := by
      intro hcon
      apply htrim
      rw [hcon]
      decide
    constructor
    · intro hany
      simp only [recordMustDoActivities, List.isEmpty_cons, Bool.false_eq_true,
        if_false, List.foldl_cons, List.foldl_nil]
      unfold mustDoInsert
      rw [if_neg hname, if_neg htrim, if_pos hany]
    · intro hany
      simp only [recordMustDoActivities, List.isEmpty_cons, Bool.false_eq_true,
        if_false, List.foldl_cons, List.foldl_nil]
      unfold mustDoInsert
      rw [if_neg hname, if_neg htrim, if_neg (by simp [hany])]
  · intro state acts h
    unfold recordMustDoActivities
    split
    · exact h
    · exact foldl_mustDoInsert_preserves acts state h
  · intro state acts h
    exact foldl_selectionMustDoInsert_preserves acts state h

/-- Witness for C7 amended at concrete inputs: an exact case-insensitive
duplicate is rejected, and distinctness of names is preserved. -/
theorem c7_mustDo_dedup_exact_name_witness :
    recordMustDoActivities [{ name := "Louvre" }] [{ name := " LOUVRE " }] =
      [{ name := "Louvre" }] ∧
    namesDistinct (recordMustDoActivities [] [{ name := "a" }, { name := "b" }]) := by
  constructor
  · exact (c7_mustDo_dedup_exact_name.1 [{ name := "Louvre" }] { name := " LOUVRE " }
      (by decide)).1 (by decide)
  · exact c7_mustDo_dedup_exact_name.2.1 [] _ List.Pairwise.nil

theorem jsOrNum_nonneg {x : Option ℚ} {d : ℚ} (hx : ∀ q, x = some q → 0 ≤ q)
    (hd : 0 ≤ d) : 0 ≤ jsOrNum x d := by
  match x with
  | none => exact hd
  | some q =>
    show 0 ≤ if q = 0 then d else q
    split
    · exact hd
    · exact hx q rfl

/-- C9 counterexample: a numeric price is returned as-is, so a negative
price reaches the totals unclamped, contradicting the claim that every
extracted price is a number greater than or equal to 0. -/
theorem c9_negative_price_counterexample :
    extractPrice (some { price := JsPrice.num (-5) }) = .ok (-5) ∧
    ¬ (0 : ℚ) ≤ -5 := by
  exact ⟨rfl, by decide⟩

/-- C9 amended: a nested object price such as amount 120 resolves through
amount, then total, then value; a numeric price is returned exactly as-is
(so negative numbers pass through unclamped); a parseable string is parsed
and an unparseable one becomes 0; an undefined price becomes 0; a null
price raises a TypeError instead of being coerced; and whenever every
numeric component of the price is non-negative, the extracted price is
non-negative. -/
theorem c9_extractPrice_behavior :
    extractPrice (some { price := JsPrice.obj (some 120) none none }) = .ok 120 ∧
    (∀ q : ℚ, extractPrice (some { price := JsPrice.num q }) = .ok q) ∧
    (∀ s : String, parseFloatQ s = none →
      extractPrice (some { price := JsPrice.str s }) = .ok 0) ∧
    (∀ (s : String) (q : ℚ), parseFloatQ s = some q →
      extractPrice (some { price := JsPrice.str s }) = .ok q) ∧
    extractPrice (some { price := JsPrice.nullVal }) = .error () ∧
    extractPrice none = .ok 0 ∧
    (∀ (it : CostItem) (q : ℚ), nonnegComponents it.price →
      extractPrice (some it) = .ok q → 0 ≤ q) := by
  refine ⟨?_, fun q => rfl, ?_, ?_, rfl, rfl, ?_⟩
  · show Except.ok (jsOrNum (some 120) (jsOrNum none (jsOrNum none 0))) = Except.ok 120
    norm_num [jsOrNum]
  · intro s hs
    show Except.ok ((parseFloatQ s).getD 0) = Except.ok 0
    rw [hs]
    rfl
  · intro s q hs
    show Except.ok ((parseFloatQ s).getD 0) = Except.ok q
    rw [hs]
    rfl
  · intro it q hnn hok
    obtain ⟨p⟩ := it
    cases p with
    | num r =>
      have h : r = q := by
        have hok' : (Except.ok r : Except Unit ℚ) = .ok q := hok
        injection hok'
      subst h
      exact hnn
    | nullVal =>
      have hok' : (Except.error () : Except Unit ℚ) = .ok q := hok
      exact absurd hok' (by simp)
    | obj a t v =>
      have h : jsOrNum a (jsOrNum t (jsOrNum v 0)) = q := by
        have hok' : (Except.ok (jsOrNum a (jsOrNum t (jsOrNum v 0))) : Except Unit ℚ) = .ok q := hok
        injection hok'
      subst h
      exact jsOrNum_nonneg hnn.1 (jsOrNum_nonneg hnn.2.1 (jsOrNum_nonneg hnn.2.2 le_rfl))
    | str s =>
      have h : (parseFloatQ s).getD 0 = q := by
        have hok' : (Except.ok ((parseFloatQ s).getD 0) : Except Unit ℚ) = .ok q := hok
        injection hok'
      subst h
      exact hnn
    | undef =>
      have h : (0 : ℚ) = q := by
        have hok' : (Except.ok (0 : ℚ) : Except Unit ℚ) = .ok q := hok
        injection hok'
      subst h
      exact le_rfl

/-- Witness for C9 amended: the non-negativity clause applied at the
concrete numeric price 3. -/
theorem c9_extractPrice_behavior_witness :
    extractPrice (some { price := JsPrice.num 3 }) = .ok 3 ∧ (0 : ℚ) ≤ 3 :=
  ⟨rfl, c9_extractPrice_behavior.2.2.2.2.2.2 { price := JsPrice.num 3 } 3
    (show (0 : ℚ) ≤ 3 by decide) rfl⟩

theorem betterCombination_false_iff (a b : Combination) :
    betterCombination a b = false ↔ scoreLe a b := by
  unfold betterCombination scoreLe
  rw [Bool.or_eq_false_iff, Bool.and_eq_false_iff]
  constructor
  · rintro ⟨h1, h2⟩
    rw [decide_eq_false_iff_not, not_lt] at h1
    rcases lt_or_eq_of_le h1 with h | h
    · exact Or.inl h
    · refine Or.inr ⟨h, ?_⟩
      rcases h2 with h2 | h2
      · rw [beq_eq_false_iff_ne] at h2
        exact absurd h h2
      · rw [decide_eq_false_iff_not, not_lt] at h2
        exact h2
  · rintro (h | ⟨h1, h2⟩)
    · refine ⟨by simp [le_of_lt h], Or.inl ?_⟩
      rw [beq_eq_false_iff_ne]
      exact ne_of_lt h
    · refine ⟨?_, Or.inr ?_⟩
      · rw [decide_eq_false_iff_not]
        exact not_lt.mpr (le_of_eq h1)
      · rw [decide_eq_false_iff_not]
        exact not_lt.mpr h2

theorem betterCombination_true_imp {a b : Combination}
    (h : betterCombination a b = true) : scoreLe b a := by
  unfold betterCombination at h
  rw [Bool.or_eq_true_iff] at h
  rcases h with h | h
  · exact Or.inl (by simpa using h)
  · rw [Bool.and_eq_true] at h
    exact Or.inr ⟨(by simpa using h.1 : combinationScore a = combinationScore b).symm,
      le_of_lt (by simpa using h.2)⟩

theorem scoreLe_trans {a b c : Combination} (h1 : scoreLe a b) (h2 : scoreLe b c) :
    scoreLe a c := by
  rcases h1 with h1 | ⟨h1, h1p⟩ <;> rcases h2 with h2 | ⟨h2, h2p⟩
  · exact Or.inl (lt_trans h1 h2)
  · exact Or.inl (h2 ▸ h1)
  · exact Or.inl (h1 ▸ h2)
  · exact Or.inr ⟨h1.trans h2, le_trans h2p h1p⟩

theorem scoreLe_refl (a : Combination) : scoreLe a a := Or.inr ⟨rfl, le_rfl⟩

/-- The fold of `selectBestCombination` produces an element every survivor
compares `scoreLe` against. -/
theorem foldl_best_scoreLe (rest : List Combination) :
    ∀ (c x : Combination), x = c ∨ x ∈ rest →
      scoreLe x (rest.foldl (fun best cand =>
        if betterCombination cand best then cand else best) c) := by
  induction rest with
  | nil =>
    intro c x hx
    rcases hx with h | h
    · rw [h]
      exact scoreLe_refl c
    · cases h
  | cons r rs ih =>
    intro c x hx
    simp only [List.foldl_cons]
    by_cases hb : betterCombination r c = true
    · rw [if_pos hb]
      rcases hx with h | h
      · rw [h]
        exact scoreLe_trans (betterCombination_true_imp hb) (ih r r (Or.inl rfl))
      · simp only [List.mem_cons] at h
        rcases h with h | h
        · rw [h]
          exact ih r r (Or.inl rfl)
        · exact ih r x (Or.inr h)
    · rw [if_neg hb]
      rcases hx with h | h
      · rw [h]
        exact ih c c (Or.inl rfl)
      · simp only [List.mem_cons] at h
        rcases h with h | h
        · rw [h]
          have hf : betterCombination r c = false := by simpa using hb
          exact scoreLe_trans ((betterCombination_false_iff r c).mp hf) (ih c c (Or.inl rfl))
        · exact ih c x (Or.inr h)

/-- The fold of `selectBestCombination` picks one of the survivors. -/
theorem foldl_best_mem (rest : List Combination) :
    ∀ c : Combination, (rest.foldl (fun best cand =>
      if betterCombination cand best then cand else best) c) = c ∨
      (rest.foldl (fun best cand =>
        if betterCombination cand best then cand else best) c) ∈ rest := by
  induction rest with
  | nil => exact fun c => Or.inl rfl
  | cons r rs ih =>
    intro c
    simp only [List.foldl_cons, List.mem_cons]
    by_cases hb : betterCombination r c = true
    · rw [if_pos hb]
      rcases ih r with h | h
      · exact Or.inr (Or.inl h)
      · exact Or.inr (Or.inr h)
    · rw [if_neg hb]
      rcases ih c with h | h
      · exact Or.inl h
      · exact Or.inr (Or.inr h)

/-- C1: every combination returned by the selector is within the inclusive
budget bound, belongs to the enumerated combinations, scores at least as
high a mean composite score as every other within-budget combination, and
at equal score is at least as cheap; in the Scenario C instance with budget
700, flights priced 500, 650 and 900, one hotel priced 150 and one activity
priced 50, any returned combination carries the 500-priced flight — never
the 900-priced one. -/
theorem c1_selector_within_budget_optimal :
    (∀ (flights hotels activities : List ScoredCandidate) (userBudget : ℚ)
      (c : Combination),
      selectBestCombination flights hotels activities userBudget = some c →
      combinationPrice c ≤ userBudget ∧
      c ∈ allCombinations flights hotels activities ∧
      ∀ x ∈ allCombinations flights hotels activities,
        combinationPrice x ≤ userBudget →
        combinationScore x ≤ combinationScore c ∧
        (combinationScore x = combinationScore c →
          combinationPrice c ≤ combinationPrice x)) ∧
    (∀ c : Combination,
      selectBestCombination [f500, f650, f900] [h150] [a50] 700 = some c →
      c.flight = some f500 ∧ c.flight ≠ some f900) := by
  have main : ∀ (flights hotels activities : List ScoredCandidate) (userBudget : ℚ)
      (c : Combination),
      selectBestCombination flights hotels activities userBudget = some c →
      combinationPrice c ≤ userBudget ∧
      c ∈ allCombinations flights hotels activities ∧
      ∀ x ∈ allCombinations flights hotels activities,
        combinationPrice x ≤ userBudget →
        combinationScore x ≤ combinationScore c ∧
        (combinationScore x = combinationScore c →
          combinationPrice c ≤ combinationPrice x) := by
    intro flights hotels activities userBudget c hsel
    unfold selectBestCombination at hsel
    cases hfil : (allCombinations flights hotels activities).filter
        (fun c => decide (combinationPrice c ≤ userBudget)) with
    | nil =>
      rw [hfil] at hsel
      simp at hsel
    | cons h t =>
      rw [hfil] at hsel
      have hsel2 : some (t.foldl (fun best cand =>
          if betterCombination cand best then cand else best) h) = some c := hsel
      injection hsel2 with hc
      have hmem : c ∈ h :: t := by
        rcases foldl_best_mem t h with he | he
        · rw [hc] at he
          rw [he]
          exact List.mem_cons_self h t
        · rw [hc] at he
          exact List.mem_cons_of_mem h he
      have hmemsurv := hmem
      rw [← hfil, List.mem_filter] at hmemsurv
      refine ⟨by simpa using hmemsurv.2, hmemsurv.1, ?_⟩
      intro x hx hxB
      have hxsurv : x ∈ (allCombinations flights hotels activities).filter
          (fun c => decide (combinationPrice c ≤ userBudget)) :=
        List.mem_filter.mpr ⟨hx, by simpa using hxB⟩
      rw [hfil] at hxsurv
      have hle : scoreLe x c := by
        rw [← hc]
        rcases List.mem_cons.mp hxsurv with h1 | h1
        · exact foldl_best_scoreLe t h x (Or.inl h1)
        · exact foldl_best_scoreLe t h x (Or.inr h1)
      rcases hle with hlt | ⟨heq, hp⟩
      · exact ⟨le_of_lt hlt, fun he => absurd he (ne_of_lt hlt)⟩
      · exact ⟨le_of_eq heq, fun _ => hp⟩
  refine ⟨main, ?_⟩
  intro c hsel
  obtain ⟨hbudget, hmem, _⟩ := main _ _ _ _ _ hsel
  have hcases : c = { flight := some f500, hotel := some h150, activity := some a50 } ∨
      c = { flight := some f650, hotel := some h150, activity := some a50 } ∨
      c = { flight := some f900, hotel := some h150, activity := some a50 } := by
    simpa [allCombinations, slotOptions] using hmem
  rcases hcases with rfl | rfl | rfl
  · refine ⟨rfl, ?_⟩
    simp [f500, f900]
  · exfalso
    rw [show combinationPrice { flight := some f650, hotel := some h150, activity := some a50 } =
      650 + 150 + 50 by simp [combinationPrice, f650, h150, a50]] at hbudget
    norm_num at hbudget
  · exfalso
    rw [show combinationPrice { flight := some f900, hotel := some h150, activity := some a50 } =
      900 + 150 + 50 by simp [combinationPrice, f900, h150, a50]] at hbudget
    norm_num at hbudget

theorem numberDays_length (l : List ItineraryDay) : ∀ i, (numberDays l i).length = l.length := by
  induction l with
  | nil => intro i; rfl
  | cons d ds ih =>
    intro i
    simp only [numberDays, List.length_cons, ih]

theorem numberDays_map_items (l : List ItineraryDay) :
    ∀ i, (numberDays l i).map ItineraryDay.items = l.map ItineraryDay.items := by
  induction l with
  | nil => intro i; rfl
  | cons d ds ih =>
    intro i
    simp only [numberDays, List.map_cons, ih]

theorem numberDays_map_dateObj (l : List ItineraryDay) :
    ∀ i, (numberDays l i).map ItineraryDay.dateObj = l.map ItineraryDay.dateObj := by
  induction l with
  | nil => intro i; rfl
  | cons d ds ih =>
    intro i
    simp only [numberDays, List.map_cons, ih]

theorem mustDoActsOf_append (l₁ l₂ : List ItineraryItem) :
    mustDoActsOf (l₁ ++ l₂) = mustDoActsOf l₁ ++ mustDoActsOf l₂ :=
  List.filterMap_append l₁ l₂ _

theorem regularActsOf_append (l₁ l₂ : List ItineraryItem) :
    regularActsOf (l₁ ++ l₂) = regularActsOf l₁ ++ regularActsOf l₂ :=
  List.filterMap_append l₁ l₂ _

theorem pushMustDoItems_mustDoActs :
    ∀ (ms : List Activity) (items : List ItineraryItem) (idx : Nat),
      mustDoActsOf (pushMustDoItems items idx ms) = mustDoActsOf items ++ ms := by
  intro ms
  induction ms with
  | nil => intro items idx; simp [pushMustDoItems]
  | cons m rest ih =>
    intro items idx
    simp only [pushMustDoItems, ih, mustDoActsOf_append]
    simp [mustDoActsOf]

theorem pushMustDoItems_regularActs :
    ∀ (ms : List Activity) (items : List ItineraryItem) (idx : Nat),
      regularActsOf (pushMustDoItems items idx ms) = regularActsOf items := by
  intro ms
  induction ms with
  | nil => intro items idx; simp [pushMustDoItems]
  | cons m rest ih =>
    intro items idx
    simp only [pushMustDoItems, ih, regularActsOf_append]
    simp [regularActsOf]

theorem pushRegularItems_mustDoActs :
    ∀ (as : List Activity) (items : List ItineraryItem) (idx : Nat),
      mustDoActsOf (pushRegularItems items idx as) = mustDoActsOf items := by
  intro as
  induction as with
  | nil => intro items idx; simp [pushRegularItems]
  | cons a rest ih =>
    intro items idx
    simp only [pushRegularItems, ih, mustDoActsOf_append]
    simp [mustDoActsOf]

theorem pushRegularItems_regularActs :
    ∀ (as : List Activity) (items : List ItineraryItem) (idx : Nat),
      regularActsOf (pushRegularItems items idx as) = regularActsOf items ++ as := by
  intro as
  induction as with
  | nil => intro items idx; simp [pushRegularItems]
  | cons a rest ih =>
    intro items idx
    simp only [pushRegularItems, ih, regularActsOf_append]
    simp [regularActsOf]

theorem buildMiddleDay_dateObj (hot : Option Hotel) (md fr : List Activity) (a i c : Nat) :
    (buildMiddleDay hot md fr a i c).dateObj = c := rfl

theorem buildMiddleDay_items (hot : Option Hotel) (md fr : List Activity) (a i c : Nat) :
    (buildMiddleDay hot md fr a i c).items = middleDayItems hot md fr a i := rfl

theorem hotelAppend_mustDoActs (hot : Option Hotel) (l : List ItineraryItem) :
    mustDoActsOf (hotelAppend hot l) = mustDoActsOf l := by
  cases hot with
  | none => rfl
  | some h =>
    show mustDoActsOf (if !h.isDummy then l ++ [ItineraryItem.hotelOvernight h] else l) = _
    split
    · simp [mustDoActsOf_append, mustDoActsOf]
    · rfl

theorem ifOpenExploration_mustDoActs (b : Bool) (l : List ItineraryItem) :
    mustDoActsOf (if b then l ++ [ItineraryItem.openExploration] else l) = mustDoActsOf l := by
  split
  · simp [mustDoActsOf_append, mustDoActsOf]
  · rfl

theorem ifPushRegular_mustDoActs (b : Bool) (l : List ItineraryItem) (idx : Nat)
    (xs : List Activity) :
    mustDoActsOf (if b then pushRegularItems l idx xs else l) = mustDoActsOf l := by
  split
  · exact pushRegularItems_mustDoActs xs l idx
  · rfl

theorem middleDayItems_mustDoActs (hot : Option Hotel) (md fr : List Activity) (a i : Nat) :
    mustDoActsOf (middleDayItems hot md fr a i) = md := by
  show mustDoActsOf (hotelAppend hot _) = md
  rw [hotelAppend_mustDoActs, ifOpenExploration_mustDoActs, ifPushRegular_mustDoActs,
    pushMustDoItems_mustDoActs]
  rfl

theorem hotelAppend_regularActs (hot : Option Hotel) (l : List ItineraryItem) :
    regularActsOf (hotelAppend hot l) = regularActsOf l := by
  cases hot with
  | none => rfl
  | some h =>
    show regularActsOf (if !h.isDummy then l ++ [ItineraryItem.hotelOvernight h] else l) = _
    split
    · simp [regularActsOf_append, regularActsOf]
    · rfl

theorem ifOpenExploration_regularActs (b : Bool) (l : List ItineraryItem) :
    regularActsOf (if b then l ++ [ItineraryItem.openExploration] else l) = regularActsOf l := by
  split
  · simp [regularActsOf_append, regularActsOf]
  · rfl

theorem middleDayItems_regularActs_subset (hot : Option Hotel) (md fr : List Activity)
    (a i : Nat) :
    ∀ x ∈ regularActsOf (middleDayItems hot md fr a i), x ∈ fr := by
  intro x hx
  rw [show middleDayItems hot md fr a i = hotelAppend hot _ from rfl,
    hotelAppend_regularActs, ifOpenExploration_regularActs] at hx
  by_cases hb : (decide (2 - (pushMustDoItems [] 0 md).length > 0) &&
      decide (fr.length > 0) && decide (a > 0)) = true
  · rw [if_pos hb] at hx
    rw [pushRegularItems_regularActs, pushMustDoItems_regularActs] at hx
    simp only [regularActsOf, List.filterMap_nil, List.nil_append] at hx
    exact List.mem_of_mem_take (List.mem_of_mem_drop hx)
  · rw [if_neg hb] at hx
    rw [pushMustDoItems_regularActs] at hx
    simp [regularActsOf] at hx

theorem day1ItemsOf_mustDoActs (f : Option Flight) (h : Option Hotel) :
    mustDoActsOf (day1ItemsOf f h) = [] := by
  unfold day1ItemsOf
  rw [mustDoActsOf_append]
  cases f with
  | none =>
    cases h with
    | none => rfl
    | some hh =>
      show mustDoActsOf [ItineraryItem.flightNeeded] ++
        mustDoActsOf (if !hh.isDummy then [ItineraryItem.hotelCheckIn hh] else []) = []
      split <;> rfl
  | some ff =>
    cases h with
    | none =>
      show mustDoActsOf (if flightIsReal ff then [ItineraryItem.flightItem ff]
        else [ItineraryItem.flightNeeded]) ++ mustDoActsOf [] = []
      split <;> rfl
    | some hh =>
      show mustDoActsOf (if flightIsReal ff then [ItineraryItem.flightItem ff]
        else [ItineraryItem.flightNeeded]) ++
        mustDoActsOf (if !hh.isDummy then [ItineraryItem.hotelCheckIn hh] else []) = []
      split <;> split <;> rfl

theorem day1ItemsOf_regularActs (f : Option Flight) (h : Option Hotel) :
    regularActsOf (day1ItemsOf f h) = [] := by
  unfold day1ItemsOf
  rw [regularActsOf_append]
  cases f with
  | none =>
    cases h with
    | none => rfl
    | some hh =>
      show regularActsOf [ItineraryItem.flightNeeded] ++
        regularActsOf (if !hh.isDummy then [ItineraryItem.hotelCheckIn hh] else []) = []
      split <;> rfl
  | some ff =>
    cases h with
    | none =>
      show regularActsOf (if flightIsReal ff then [ItineraryItem.flightItem ff]
        else [ItineraryItem.flightNeeded]) ++ regularActsOf [] = []
      split <;> rfl
    | some hh =>
      show regularActsOf (if flightIsReal ff then [ItineraryItem.flightItem ff]
        else [ItineraryItem.flightNeeded]) ++
        regularActsOf (if !hh.isDummy then [ItineraryItem.hotelCheckIn hh] else []) = []
      split <;> split <;> rfl

theorem lastDayItemsOf_mustDoActs (rf : Option Flight) :
    mustDoActsOf (lastDayItemsOf rf) = [] := by
  unfold lastDayItemsOf
  cases rf with
  | none => rfl
  | some f =>
    show mustDoActsOf (if flightIsReal f then [ItineraryItem.returnFlightItem f]
      else [ItineraryItem.returnFlightNeeded]) = []
    split <;> rfl

theorem lastDayItemsOf_regularActs (rf : Option Flight) :
    regularActsOf (lastDayItemsOf rf) = [] := by
  unfold lastDayItemsOf
  cases rf with
  | none => rfl
  | some f =>
    show regularActsOf (if flightIsReal f then [ItineraryItem.returnFlightItem f]
      else [ItineraryItem.returnFlightNeeded]) = []
    split <;> rfl

theorem day1ItemsOf_flightNeeded (flight : Option Flight) (h : Option Hotel)
    (hf : flight = none ∨ ∃ f, flight = some f ∧ flightIsReal f = false) :
    ItineraryItem.flightNeeded ∈ day1ItemsOf flight h := by
  unfold day1ItemsOf
  apply List.mem_append_left
  rcases hf with rfl | ⟨f, rfl, hreal⟩
  · exact List.mem_singleton_self _
  · show ItineraryItem.flightNeeded ∈
      (if flightIsReal f then [ItineraryItem.flightItem f] else [ItineraryItem.flightNeeded])
    rw [if_neg (by rw [hreal]; exact Bool.false_ne_true)]
    exact List.mem_singleton_self _

theorem mustDoDistribution_length (ms : List Activity) (n : Nat) :
    (mustDoDistribution ms n).length = n := by
  induction n generalizing ms with
  | zero => rfl
  | succ k ih => simp [mustDoDistribution, ih]

theorem mustDoDistribution_flatten (ms : List Activity) (n : Nat) :
    (mustDoDistribution ms n).flatten = ms.take (2 * n) := by
  induction n generalizing ms with
  | zero => simp [mustDoDistribution]
  | succ k ih =>
    show (ms.take 2 :: mustDoDistribution (ms.drop 2) k).flatten = ms.take (2 * (k + 1))
    rw [List.flatten_cons, ih, show 2 * (k + 1) = 2 + 2 * k by omega, List.take_add]

theorem mustDoDistribution_getD (ms : List Activity) (n i : Nat) (hi : i < n) :
    (mustDoDistribution ms n).getD i [] = (ms.drop (2 * i)).take 2 := by
  induction n generalizing ms i with
  | zero => omega
  | succ k ih =>
    show (ms.take 2 :: mustDoDistribution (ms.drop 2) k).getD i [] = _
    cases i with
    | zero => simp
    | succ j =>
      rw [List.getD_cons_succ, ih (ms.drop 2) j (by omega), List.drop_drop,
        show 2 * (j + 1) = 2 + 2 * j by omega]

theorem createDayByDay_oneWay_none (inp : AssembleInput) (s : Nat)
    (hs : inp.startDate = some s) (he : inp.endDate = none) :
    createDayByDayItinerary inp =
      .ok [{ day := 1, dateObj := s, items := day1ItemsOf inp.flight inp.hotel }] := by
  have hbr : buildDateRange (some s) (some s) = [s] := by
    simpa using buildDateRange_decomp s 0
  simp only [createDayByDayItinerary, hs, he, Option.getD_none, hbr, bne_self_eq_false,
    List.head?_cons, List.length_cons, List.length_nil, Bool.false_eq_true, if_false,
    gt_iff_lt, Nat.lt_irrefl, List.insertionSort, List.orderedInsert, numberDays]

theorem createDayByDay_oneWay_eqDates (inp : AssembleInput) (s : Nat)
    (hs : inp.startDate = some s) (he : inp.endDate = some s) :
    createDayByDayItinerary inp =
      .ok [{ day := 1, dateObj := s, items := day1ItemsOf inp.flight inp.hotel }] := by
  have hbr : buildDateRange (some s) (some s) = [s] := by
    simpa using buildDateRange_decomp s 0
  simp only [createDayByDayItinerary, hs, he, Option.getD_some, hbr, bne_self_eq_false,
    List.head?_cons, List.length_cons, List.length_nil, Bool.false_eq_true, if_false,
    gt_iff_lt, Nat.lt_irrefl, List.insertionSort, List.orderedInsert, numberDays]

theorem createDayByDay_roundTrip (inp : AssembleInput) (s m : Nat)
    (hs : inp.startDate = some s) (he : inp.endDate = some (s + m + 1)) :
    createDayByDayItinerary inp = .ok (numberDays (
      { dateObj := s, items := day1ItemsOf inp.flight inp.hotel } ::
      (((List.range m).map fun i =>
        buildMiddleDay inp.hotel ((mustDoDistribution inp.mustDoActivities m).getD i [])
          (filteredRegularActivitiesOf inp) m i (s + 1 + i)) ++
      [{ dateObj := s + m + 1, items := lastDayItemsOf inp.returnFlight }])) 0) := by
  have hbr : buildDateRange (some s) (some (s + m + 1)) =
      s :: (List.range (m + 1)).map (fun i => s + 1 + i) := buildDateRange_decomp s (m + 1)
  have hne : ((s + m + 1 : Nat) != s) = true := by
    rw [bne_iff_ne]
    omega
  have hmid : (((s :: (List.range (m + 1)).map (fun i => s + 1 + i)).drop 1).dropLast) =
      (List.range m).map (fun i => s + 1 + i) := by
    rw [List.drop_succ_cons, List.drop_zero, List.range_succ, List.map_append,
      List.map_singleton, List.dropLast_concat]
  have hlast : (s :: (List.range (m + 1)).map (fun i => s + 1 + i)).getLast? =
      some (s + m + 1) := by
    rw [← hbr]
    exact buildDateRange_getLast s (s + m + 1) (by omega)
  have hgt : (1 : Nat) < m + 1 + 1 := by omega
  have hgetD : ∀ i, i < m →
      (((List.range m).map fun j => s + 1 + j).getD i 0) = s + 1 + i := by
    intro i hi
    rw [List.getD_eq_getElem?_getD, List.getElem?_map, List.getElem?_range hi]
    rfl
  have hsorted : List.Sorted (fun a b : ItineraryDay => a.dateObj ≤ b.dateObj)
      ({ dateObj := s, items := day1ItemsOf inp.flight inp.hotel } ::
        (((List.range m).map fun i =>
          buildMiddleDay inp.hotel ((mustDoDistribution inp.mustDoActivities m).getD i [])
            (filteredRegularActivitiesOf inp) m i (s + 1 + i)) ++
        [{ dateObj := s + m + 1, items := lastDayItemsOf inp.returnFlight }])) := by
    refine List.Pairwise.cons ?_ ?_
    · intro b hb
      rcases List.mem_append.mp hb with hb | hb
      · obtain ⟨i, hi, rfl⟩ := List.mem_map.mp hb
        show s ≤ (buildMiddleDay _ _ _ _ _ (s + 1 + i)).dateObj
        rw [buildMiddleDay_dateObj]
        omega
      · rw [List.mem_singleton] at hb
        subst hb
        show s ≤ s + m + 1
        omega
    · rw [List.pairwise_append]
      refine ⟨?_, List.pairwise_singleton _ _, ?_⟩
      · refine List.Pairwise.map _ ?_ (List.pairwise_lt_range m)
        intro a b hab
        show (buildMiddleDay _ _ _ _ _ (s + 1 + a)).dateObj ≤
          (buildMiddleDay _ _ _ _ _ (s + 1 + b)).dateObj
        rw [buildMiddleDay_dateObj, buildMiddleDay_dateObj]
        omega
      · intro x hx y hy
        obtain ⟨i, hi, rfl⟩ := List.mem_map.mp hx
        rw [List.mem_singleton] at hy
        subst hy
        show (buildMiddleDay _ _ _ _ _ (s + 1 + i)).dateObj ≤ s + m + 1
        rw [buildMiddleDay_dateObj]
        rw [List.mem_range] at hi
        omega
  simp only [createDayByDayItinerary, hs, he, Option.getD_some, hbr, hne, if_true,
    List.head?_cons, List.length_cons, List.length_map, List.length_range, gt_iff_lt, hgt,
    hmid, hlast, List.singleton_append, List.cons_append]
  rw [List.map_congr_left (fun i hi => by
    rw [hgetD i (List.mem_range.mp hi)])]
  simp only [List.nil_append]
  rw [hsorted.insertionSort_eq]

theorem numberDays_append (l₁ l₂ : List ItineraryDay) :
    ∀ i, numberDays (l₁ ++ l₂) i = numberDays l₁ i ++ numberDays l₂ (i + l₁.length) := by
  induction l₁ with
  | nil => intro i; simp [numberDays]
  | cons d ds ih =>
    intro i
    simp only [List.cons_append, numberDays, List.length_cons, List.append_eq, ih]
    rw [show i + (ds.length + 1) = i + 1 + ds.length by omega]

theorem numberDays_map_items_fn {β : Type} (f : List ItineraryItem → β) (l : List ItineraryDay) :
    ∀ i, (numberDays l i).map (fun d => f d.items) = l.map (fun d => f d.items) := by
  induction l with
  | nil => intro i; rfl
  | cons d ds ih =>
    intro i
    simp only [numberDays, List.map_cons, ih]

theorem numberDays_countP (p : List ItineraryItem → Bool) (l : List ItineraryDay) :
    ∀ i, (numberDays l i).countP (fun d => p d.items) = l.countP (fun d => p d.items) := by
  induction l with
  | nil => intro i; rfl
  | cons d ds ih =>
    intro i
    simp only [numberDays, List.countP_cons, ih]

theorem numberDays_mem (l : List ItineraryDay) :
    ∀ i d, d ∈ numberDays l i → ∃ d' ∈ l, d.items = d'.items := by
  induction l with
  | nil => intro i d hd; cases hd
  | cons x xs ih =>
    intro i d hd
    rcases List.mem_cons.mp hd with h | h
    · exact ⟨x, List.mem_cons_self x xs, by rw [h]⟩
    · obtain ⟨d', hd', he⟩ := ih (i + 1) d h
      exact ⟨d', List.mem_cons_of_mem x hd', he⟩

theorem getD_range_map {α : Type} (L : List (List α)) :
    (List.range L.length).map (fun i => L.getD i []) = L := by
  induction L with
  | nil => rfl
  | cons x xs ih =>
    apply List.ext_getElem?
    intro i
    rw [List.getElem?_map]
    by_cases hi : i < (x :: xs).length
    · rw [List.getElem?_range (by simpa using hi)]
      rw [List.getElem?_eq_getElem hi]
      show some ((x :: xs).getD i []) = some (x :: xs)[i]
      rw [List.getD_eq_getElem (x :: xs) [] hi]
    · have h1 : (x :: xs).length ≤ i := by omega
      rw [List.getElem?_eq_none h1, List.getElem?_eq_none (by simpa using h1)]
      rfl

theorem countP_flatten_count_one {α : Type} [DecidableEq α] (L : List (List α)) (a : α)
    (h : L.flatten.count a = 1) : (L.countP fun l => decide (a ∈ l)) = 1 := by
  induction L with
  | nil => simp at h
  | cons x xs ih =>
    rw [List.flatten_cons, List.count_append] at h
    rw [List.countP_cons]
    by_cases hx : a ∈ x
    · have hcx : 0 < x.count a := List.count_pos_iff.mpr hx
      have hrest : xs.flatten.count a = 0 := by omega
      have hzero : (xs.countP fun l => decide (a ∈ l)) = 0 := by
        rw [List.countP_eq_zero]
        intro l hl
        simp only [decide_eq_true_eq]
        intro hal
        exact absurd (List.mem_flatten_of_mem hl hal) (List.count_eq_zero.mp hrest)
      have hcx1 : x.count a = 1 := by omega
      simp [hzero, hx]
    · have hcx : x.count a = 0 := List.count_eq_zero.mpr hx
      have hrest : xs.flatten.count a = 1 := by omega
      simp [hx, ih hrest]

theorem mustDoNameMatches_self (ms : List Activity) (act : Activity) (h : act ∈ ms) :
    mustDoNameMatches ms act = true := by
  unfold mustDoNameMatches
  rw [List.any_eq_true]
  exact ⟨act, h, by simp⟩

theorem filteredRegular_not_mustDo (inp : AssembleInput) (act : Activity)
    (h : act ∈ filteredRegularActivitiesOf inp) : act ∉ inp.mustDoActivities := by
  intro hmem
  unfold filteredRegularActivitiesOf regularActivitiesOf at h
  rw [List.mem_filter] at h
  rw [List.mem_filter] at h
  have := h.1.2
  rw [mustDoNameMatches_self inp.mustDoActivities act hmem] at this
  simp at this

/-- C5: a trip window without an end date (one-way trip) always assembles
to exactly one ItineraryDay. -/
theorem c5_oneWay_single_day :
    ∀ (inp : AssembleInput) (s : Nat), inp.startDate = some s → inp.endDate = none →
      ∃ d : ItineraryDay, createDayByDayItinerary inp = .ok [d] :=
  fun inp s hs he => ⟨_, createDayByDay_oneWay_none inp s hs he⟩

/-- Witness for C5 at a concrete one-way input. -/
theorem c5_oneWay_single_day_witness :
    (resultDays (createDayByDayItinerary { startDate := some 10 })).length = 1 := by
  obtain ⟨d, hd⟩ := c5_oneWay_single_day { startDate := some 10 } 10 rfl rfl
  rw [resultDays, hd]
  rfl

theorem roundTrip_days_mustDoActs (inp : AssembleInput) (s m : Nat) :
    (({ dateObj := s, items := day1ItemsOf inp.flight inp.hotel } ::
      (((List.range m).map fun i =>
        buildMiddleDay inp.hotel ((mustDoDistribution inp.mustDoActivities m).getD i [])
          (filteredRegularActivitiesOf inp) m i (s + 1 + i)) ++
      [{ dateObj := s + m + 1, items := lastDayItemsOf inp.returnFlight }])) :
        List ItineraryDay).map (fun d => mustDoActsOf d.items) =
      [] :: (mustDoDistribution inp.mustDoActivities m ++ [[]]) := by
  simp only [List.map_cons, List.map_append, List.map_map, List.map_singleton,
    day1ItemsOf_mustDoActs, lastDayItemsOf_mustDoActs]
  congr 2
  have hgd := getD_range_map (mustDoDistribution inp.mustDoActivities m)
  rw [mustDoDistribution_length inp.mustDoActivities m] at hgd
  refine (List.map_congr_left fun i _ => ?_).trans hgd
  show mustDoActsOf (buildMiddleDay inp.hotel
      ((mustDoDistribution inp.mustDoActivities m).getD i [])
      (filteredRegularActivitiesOf inp) m i (s + 1 + i)).items =
    (mustDoDistribution inp.mustDoActivities m).getD i []
  rw [buildMiddleDay_items, middleDayItems_mustDoActs]

/-- C2 counterexample: with three must-dos and one interior day, the third
must-do is dropped — it appears in the items of zero ItineraryDays even
though the date window resolved and the must-do list is non-empty. -/
theorem c2_mustDo_dropped_counterexample :
    inpC2.mustDoActivities.length = 3 ∧
    (resultDays (createDayByDayItinerary inpC2)).length = 3 ∧
    ((resultDays (createDayByDayItinerary inpC2)).countP fun d =>
      decide (({ name := "Catacombs" } : Activity) ∈ mustDoActsOf d.items)) = 0 := by
  refine ⟨rfl, ?_, ?_⟩ <;> decide

/-- C2 amended: when the must-do list fits the per-day slot budget
(mustDoCount ≤ 2 × interior days), the per-day must-do lists concatenate
exactly to the input must-do list, each must-do with pairwise-distinct
entries appears in exactly one ItineraryDay, and no must-do entry is also
placed as a regular activity item. -/
theorem c2_mustDo_exactly_once :
    ∀ (inp : AssembleInput) (s m : Nat), inp.startDate = some s →
      inp.endDate = some (s + m + 1) → 1 ≤ m → inp.mustDoActivities ≠ [] →
      inp.mustDoActivities.length ≤ 2 * m →
      ∃ ds, createDayByDayItinerary inp = .ok ds ∧
        ((ds.map fun d => mustDoActsOf d.items).flatten = inp.mustDoActivities) ∧
        (inp.mustDoActivities.Nodup → ∀ a ∈ inp.mustDoActivities,
          (ds.countP fun d => decide (a ∈ mustDoActsOf d.items)) = 1) ∧
        (∀ d ∈ ds, ∀ act time, ItineraryItem.activityItem act time ∈ d.items →
          act ∉ inp.mustDoActivities) := by
  intro inp s m hs he hm hne hcount
  refine ⟨_, createDayByDay_roundTrip inp s m hs he, ?_, ?_, ?_⟩
  · rw [numberDays_map_items_fn (fun items => mustDoActsOf items)]
    rw [roundTrip_days_mustDoActs inp s m]
    rw [List.flatten_cons, List.flatten_append, mustDoDistribution_flatten]
    simp only [List.flatten_cons, List.flatten_nil, List.nil_append, List.append_nil]
    exact List.take_of_length_le hcount
  · intro hnodup a ha
    rw [numberDays_countP (fun items => decide (a ∈ mustDoActsOf items))]
    have h1 := List.countP_map (fun l => decide (a ∈ l))
      (fun d : ItineraryDay => mustDoActsOf d.items)
      ({ dateObj := s, items := day1ItemsOf inp.flight inp.hotel } ::
        (((List.range m).map fun i =>
          buildMiddleDay inp.hotel ((mustDoDistribution inp.mustDoActivities m).getD i [])
            (filteredRegularActivitiesOf inp) m i (s + 1 + i)) ++
        [{ dateObj := s + m + 1, items := lastDayItemsOf inp.returnFlight }]))
    rw [roundTrip_days_mustDoActs inp s m] at h1
    have h2 : (([] :: (mustDoDistribution inp.mustDoActivities m ++ [[]])).countP
        fun l => decide (a ∈ l)) = 1 := by
      apply countP_flatten_count_one
      rw [List.flatten_cons, List.flatten_append, mustDoDistribution_flatten]
      simp only [List.flatten_cons, List.flatten_nil, List.nil_append, List.append_nil]
      rw [List.take_of_length_le hcount]
      exact List.count_eq_one_of_mem hnodup ha
    rw [h2] at h1
    exact h1.symm
  · intro d hd act t hitem
    obtain ⟨d', hd', hitems⟩ := numberDays_mem _ 0 d hd
    have hact : act ∈ regularActsOf d'.items := by
      rw [← hitems]
      exact List.mem_filterMap.mpr ⟨ItineraryItem.activityItem act t, hitem, rfl⟩
    rcases List.mem_cons.mp hd' with rfl | hd'
    · simp [day1ItemsOf_regularActs] at hact
    · rcases List.mem_append.mp hd' with hmid | hlast
      · obtain ⟨i, hi, rfl⟩ := List.mem_map.mp hmid
        rw [buildMiddleDay_items] at hact
        exact filteredRegular_not_mustDo inp act
          (middleDayItems_regularActs_subset _ _ _ _ _ act hact)
      · rw [List.mem_singleton] at hlast
        subst hlast
        simp [lastDayItemsOf_regularActs] at hact

/-- Witness for C2 amended at a concrete input: two must-dos, two interior
days. -/
theorem c2_mustDo_exactly_once_witness :
    ∃ ds, createDayByDayItinerary
        { mustDoActivities := [{ name := "Eiffel Tower" }, { name := "Seine Cruise" }],
          startDate := some 0, endDate := some 3 } = .ok ds ∧
      (ds.map fun d => mustDoActsOf d.items).flatten =
        [{ name := "Eiffel Tower" }, { name := "Seine Cruise" }] := by
  obtain ⟨ds, hok, hflat, _, _⟩ := c2_mustDo_exactly_once
    { mustDoActivities := [{ name := "Eiffel Tower" }, { name := "Seine Cruise" }],
      startDate := some 0, endDate := some 3 } 0 2 rfl rfl (by decide) (by decide) (by decide)
  exact ⟨ds, hok, hflat⟩

/-- C3: the source computes `mustDoPerDay = ceil(mustDoCount /
interiorDayCount)` but never uses it; the distribution loop packs must-dos
greedily, two per interior day.  With two must-dos and two interior days
the first interior day receives both must-dos and the second receives none,
whereas the claimed per-day count min(2, ceil(2/2)) is 1. -/
theorem c3_greedy_distribution_eval :
    ((resultDays (createDayByDayItinerary inpC3)).map fun d =>
      (mustDoActsOf d.items).length) = [0, 2, 0, 0] ∧
    Nat.min 2 ((inpC3.mustDoActivities.length + 2 - 1) / 2) = 1 := by
  refine ⟨?_, ?_⟩ <;> decide

theorem openExploration_mem_hotelAppend (hot : Option Hotel) :
    ItineraryItem.openExploration ∈ hotelAppend hot [ItineraryItem.openExploration] := by
  cases hot with
  | none => exact List.mem_singleton_self _
  | some h =>
    show ItineraryItem.openExploration ∈
      (if !h.isDummy then [ItineraryItem.openExploration] ++ [ItineraryItem.hotelOvernight h]
        else [ItineraryItem.openExploration])
    split
    · exact List.mem_append_left _ (List.mem_singleton_self _)
    · exact List.mem_singleton_self _

/-- C6 counterexample: the preference filter leaves zero candidates, yet the
assembler does NOT fall back to the unfiltered pool — the interior day gets
only the Open Exploration placeholder and the unfiltered activity appears
nowhere. -/
theorem c6_no_fallback_counterexample :
    regularActivitiesOf inpC6 = [{ name := "Mountain Hike", category := "hiking" }] ∧
    filteredRegularActivitiesOf inpC6 = [] ∧
    ((resultDays (createDayByDayItinerary inpC6)).map ItineraryDay.items) =
      [[ItineraryItem.flightNeeded], [ItineraryItem.openExploration],
        [ItineraryItem.returnFlightNeeded]] := by
  refine ⟨?_, ?_, ?_⟩ <;> decide

/-- C6 amended: when the preference filter leaves zero regular candidates,
no regular activity item is placed on any day (there is no fallback to the
unfiltered pool), and every interior day that received no must-do carries
the Open Exploration placeholder instead. -/
theorem c6_filtered_empty_open_exploration :
    ∀ (inp : AssembleInput) (s m : Nat), inp.startDate = some s →
      inp.endDate = some (s + m + 1) → 1 ≤ m →
      filteredRegularActivitiesOf inp = [] →
      ∃ ds, createDayByDayItinerary inp = .ok ds ∧
        (∀ d ∈ ds, ∀ act time, ItineraryItem.activityItem act time ∉ d.items) ∧
        (∀ i, i < m → ∃ items, (ds.map ItineraryDay.items)[i + 1]? = some items ∧
          (mustDoActsOf items = [] → ItineraryItem.openExploration ∈ items)) := by
  intro inp s m hs he hm hfiltered
  refine ⟨_, createDayByDay_roundTrip inp s m hs he, ?_, ?_⟩
  · intro d hd act t hitem
    obtain ⟨d', hd', hitems⟩ := numberDays_mem _ 0 d hd
    have hact : act ∈ regularActsOf d'.items := by
      rw [← hitems]
      exact List.mem_filterMap.mpr ⟨ItineraryItem.activityItem act t, hitem, rfl⟩
    rcases List.mem_cons.mp hd' with rfl | hd'
    · simp [day1ItemsOf_regularActs] at hact
    · rcases List.mem_append.mp hd' with hmid | hlast
      · obtain ⟨i, hi, rfl⟩ := List.mem_map.mp hmid
        rw [buildMiddleDay_items] at hact
        have := middleDayItems_regularActs_subset _ _ _ _ _ act hact
        rw [hfiltered] at this
        exact absurd this (List.not_mem_nil act)
      · rw [List.mem_singleton] at hlast
        subst hlast
        simp [lastDayItemsOf_regularActs] at hact
  · intro i hi
    rw [numberDays_map_items]
    simp only [List.map_cons, List.map_append, List.map_map, List.map_singleton]
    rw [List.getElem?_cons_succ]
    rw [List.getElem?_append_left (by simpa using hi)]
    rw [List.getElem?_map, List.getElem?_range hi]
    refine ⟨_, rfl, ?_⟩
    intro hmd
    show ItineraryItem.openExploration ∈
      (ItineraryDay.items ∘ fun i => buildMiddleDay inp.hotel
        ((mustDoDistribution inp.mustDoActivities m).getD i [])
        (filteredRegularActivitiesOf inp) m i (s + 1 + i)) i
    show ItineraryItem.openExploration ∈ middleDayItems inp.hotel
      ((mustDoDistribution inp.mustDoActivities m).getD i [])
      (filteredRegularActivitiesOf inp) m i
    have hchunk : (mustDoDistribution inp.mustDoActivities m).getD i [] = [] := by
      have := middleDayItems_mustDoActs inp.hotel
        ((mustDoDistribution inp.mustDoActivities m).getD i [])
        (filteredRegularActivitiesOf inp) m i
      rw [← this]
      exact hmd
    rw [hchunk, hfiltered]
    exact openExploration_mem_hotelAppend inp.hotel

theorem numberDays_singleton (d : ItineraryDay) (k : Nat) :
    numberDays [d] k = [{ d with day := k + 1 }] := rfl

theorem numberDays_cons_append_getLast (d : ItineraryDay) (l : List ItineraryDay)
    (dl : ItineraryDay) (i : Nat) :
    ∃ d', (numberDays (d :: (l ++ [dl])) i).getLast? = some d' ∧ d'.items = dl.items := by
  rw [← List.cons_append, numberDays_append, numberDays_singleton, List.getLast?_concat]
  exact ⟨_, rfl, rfl⟩

/-- C8 counterexample: with a parseable start date, no flight, and an end
date lying before the start date, the assembler returns an itinerary with
no days at all — so day 1 does not carry the transport placeholder (there
is no day 1). -/
theorem c8_reversed_window_counterexample :
    createDayByDayItinerary inpC8 = .ok [] ∧ inpC8.startDate.isSome = true ∧
    inpC8.flight = none :=
  ⟨rfl, rfl, rfl⟩

/-- C8 amended: the assembler fails exactly when the start date cannot be
resolved; provided the resolved end date is not strictly before the start
date — a round trip, a missing end date, or a parseable end date equal to
the start date — a missing outbound flight degrades to a `Flight Needed`
placeholder on day 1 and, on a round trip, a missing return flight degrades
to a `Return Flight Needed` placeholder on the last day. -/
theorem c8_missing_transport_never_throws :
    (∀ inp : AssembleInput, (∃ ds, createDayByDayItinerary inp = .ok ds) ↔
      inp.startDate.isSome = true) ∧
    (∀ (inp : AssembleInput) (s m : Nat), inp.startDate = some s →
      inp.endDate = some (s + m + 1) → inp.flight = none → inp.returnFlight = none →
      ∃ ds d1 dl, createDayByDayItinerary inp = .ok ds ∧
        ds.head? = some d1 ∧ ItineraryItem.flightNeeded ∈ d1.items ∧
        ds.getLast? = some dl ∧ ItineraryItem.returnFlightNeeded ∈ dl.items) ∧
    (∀ (inp : AssembleInput) (s : Nat), inp.startDate = some s → inp.endDate = none →
      inp.flight = none →
      ∃ ds d1, createDayByDayItinerary inp = .ok ds ∧
        ds.head? = some d1 ∧ ItineraryItem.flightNeeded ∈ d1.items) ∧
    (∀ (inp : AssembleInput) (s : Nat), inp.startDate = some s → inp.endDate = some s →
      inp.flight = none →
      ∃ ds d1, createDayByDayItinerary inp = .ok ds ∧
        ds.head? = some d1 ∧ ItineraryItem.flightNeeded ∈ d1.items) := by
  refine ⟨?_, ?_, ?_, ?_⟩
  · intro inp
    constructor
    · rintro ⟨ds, hds⟩
      cases hsd : inp.startDate with
      | none =>
        rw [createDayByDayItinerary.eq_def, hsd] at hds
        cases hds
      | some s => rfl
    · intro hsome
      cases hsd : inp.startDate with
      | none => rw [hsd] at hsome; cases hsome
      | some s =>
        rw [createDayByDayItinerary.eq_def, hsd]
        exact ⟨_, rfl⟩
  · intro inp s m hs he hf hrf
    have hstruct := createDayByDay_roundTrip inp s m hs he
    obtain ⟨dl', hdl, hdli⟩ := numberDays_cons_append_getLast
      { dateObj := s, items := day1ItemsOf inp.flight inp.hotel }
      ((List.range m).map fun i =>
        buildMiddleDay inp.hotel ((mustDoDistribution inp.mustDoActivities m).getD i [])
          (filteredRegularActivitiesOf inp) m i (s + 1 + i))
      { dateObj := s + m + 1, items := lastDayItemsOf inp.returnFlight } 0
    refine ⟨_, _, dl', hstruct, rfl, ?_, hdl, ?_⟩
    · show ItineraryItem.flightNeeded ∈ day1ItemsOf inp.flight inp.hotel
      rw [hf]
      exact day1ItemsOf_flightNeeded none inp.hotel (Or.inl rfl)
    · rw [hdli]
      show ItineraryItem.returnFlightNeeded ∈ lastDayItemsOf inp.returnFlight
      rw [hrf]
      exact List.mem_singleton_self _
  · intro inp s hs he hf
    refine ⟨_, _, createDayByDay_oneWay_none inp s hs he, rfl, ?_⟩
    show ItineraryItem.flightNeeded ∈ day1ItemsOf inp.flight inp.hotel
    rw [hf]
    exact day1ItemsOf_flightNeeded none inp.hotel (Or.inl rfl)
  · intro inp s hs he hf
    refine ⟨_, _, createDayByDay_oneWay_eqDates inp s hs he, rfl, ?_⟩
    show ItineraryItem.flightNeeded ∈ day1ItemsOf inp.flight inp.hotel
    rw [hf]
    exact day1ItemsOf_flightNeeded none inp.hotel (Or.inl rfl)

/-- Witness for C8 amended: a concrete round trip with no flights assembles
successfully with both placeholders. -/
theorem c8_missing_transport_never_throws_witness :
    (createDayByDayItinerary { startDate := some 0, endDate := some 2 }).isOk = true := by
  obtain ⟨ds, hds⟩ := (c8_missing_transport_never_throws.1
    { startDate := some 0, endDate := some 2 }).mpr rfl
  rw [hds]
  rfl

theorem resultDays_ok (x : List ItineraryDay) : resultDays (.ok x) = x := rfl

theorem length_filterMap_isSome {α β : Type} (l : List α) (f : α → Option β)
    (h : ∀ a ∈ l, (f a).isSome = true) : (l.filterMap f).length = l.length := by
  induction l with
  | nil => rfl
  | cons x xs ih =>
    rw [List.filterMap_cons]
    cases hfx : f x with
    | none =>
      have := h x (List.mem_cons_self x xs)
      rw [hfx] at this
      cases this
    | some b =>
      rw [List.length_cons, ih (fun a ha => h a (List.mem_cons_of_mem x ha)),
        List.length_cons]

theorem legacy_roundTrip_length (flight : Option Flight) (hotel : Option Hotel)
    (acts : List Activity) (rf : Option Flight) (s m : Nat) :
    (resultDays (legacyCreateDayByDayItinerary flight hotel acts (some s)
      (some (s + m + 1)) rf)).length = min (m + 2) 7 := by
  rcases Nat.eq_zero_or_pos m with rfl | hm
  · have hne : ((s + 0 + 1 : Nat) != s) = true := by
      rw [bne_iff_ne]
      omega
    have hsub : s + 0 + 1 - s = 1 := by omega
    have hlt : s < s + 0 + 1 := by omega
    simp only [legacyCreateDayByDayItinerary, Option.getD_some, hne, if_true, Bool.true_and,
      hsub, hlt, decide_True, Nat.max_self, gt_iff_lt, Nat.lt_irrefl, decide_False,
      Bool.false_eq_true, if_false]
    rw [resultDays_ok, numberDays_length, List.length_insertionSort]
    rfl
  · obtain ⟨k, rfl⟩ : ∃ k, m = k + 1 := ⟨m - 1, by omega⟩
    have hne : ((s + (k + 1) + 1 : Nat) != s) = true := by
      rw [bne_iff_ne]
      omega
    have hsub : s + (k + 1) + 1 - s = k + 2 := by omega
    have hmax : max 1 (k + 2) = k + 2 := by omega
    have h12 : (1 : Nat) < k + 2 := by omega
    have hlt : s < s + (k + 1) + 1 := by omega
    simp only [legacyCreateDayByDayItinerary, Option.getD_some, hne, if_true, Bool.true_and,
      hsub, hmax, gt_iff_lt, h12, hlt, decide_True]
    rw [resultDays_ok, numberDays_length, List.length_insertionSort]
    rw [List.length_append, List.length_append, List.length_singleton,
      List.length_singleton]
    rw [length_filterMap_isSome]
    · rw [List.length_range]
      omega
    · intro j hj
      rw [List.mem_range] at hj
      have hne2 : ¬ (s + (j + 1) = s + (k + 1) + 1) := by omega
      simp only [if_neg hne2, Option.isSome_some]

theorem current_roundTrip_length (inp : AssembleInput) (s m : Nat)
    (hs : inp.startDate = some s) (he : inp.endDate = some (s + m + 1)) :
    (resultDays (createDayByDayItinerary inp)).length = m + 2 := by
  rw [createDayByDay_roundTrip inp s m hs he, resultDays_ok, numberDays_length]
  simp

theorem current_roundTrip_dates (inp : AssembleInput) (s m : Nat)
    (hs : inp.startDate = some s) (he : inp.endDate = some (s + m + 1)) :
    (resultDays (createDayByDayItinerary inp)).map ItineraryDay.dateObj =
      buildDateRange (some s) (some (s + m + 1)) := by
  rw [createDayByDay_roundTrip inp s m hs he, resultDays_ok, numberDays_map_dateObj]
  have hbr : buildDateRange (some s) (some (s + m + 1)) =
      s :: (List.range (m + 1)).map (fun i => s + 1 + i) := buildDateRange_decomp s (m + 1)
  rw [hbr]
  simp only [List.map_cons, List.map_append, List.map_map, List.map_singleton]
  congr 1
  rw [List.range_succ, List.map_append, List.map_singleton]
  congr 1
  simp only [List.map_nil]
  congr 1
  omega

/-- C10: the two copies of the assembly algorithm are not extensionally
equivalent.  For a round-trip window of m+2 calendar dates on the same
inputs, the current copy produces exactly one ItineraryDay per calendar
date of the window, while the legacy copy caps interior days at 5 and so
produces min(m+2, 7) days — at most 7 — skipping the dates beyond the cap;
for every window longer than 7 days the two day counts differ. -/
theorem c10_legacy_current_divergence :
    ∀ (flight : Option Flight) (hotel : Option Hotel) (acts mustDos : List Activity)
      (prefs : Option TripPreferences) (rf : Option Flight) (s m : Nat),
      (resultDays (createDayByDayItinerary
        { flight := flight, hotel := hotel, allActivities := acts,
          mustDoActivities := mustDos, preferences := prefs,
          startDate := some s, endDate := some (s + m + 1), returnFlight := rf })).length
        = m + 2 ∧
      (resultDays (createDayByDayItinerary
        { flight := flight, hotel := hotel, allActivities := acts,
          mustDoActivities := mustDos, preferences := prefs,
          startDate := some s, endDate := some (s + m + 1), returnFlight := rf })).map
        ItineraryDay.dateObj = buildDateRange (some s) (some (s + m + 1)) ∧
      (resultDays (legacyCreateDayByDayItinerary flight hotel acts (some s)
        (some (s + m + 1)) rf)).length = min (m + 2) 7 ∧
      (resultDays (legacyCreateDayByDayItinerary flight hotel acts (some s)
        (some (s + m + 1)) rf)).length ≤ 7 ∧
      (7 < m + 2 →
        (resultDays (createDayByDayItinerary
          { flight := flight, hotel := hotel, allActivities := acts,
            mustDoActivities := mustDos, preferences := prefs,
            startDate := some s, endDate := some (s + m + 1), returnFlight := rf })).length ≠
        (resultDays (legacyCreateDayByDayItinerary flight hotel acts (some s)
          (some (s + m + 1)) rf)).length) := by
  intro flight hotel acts mustDos prefs rf s m
  have hcur := current_roundTrip_length
    { flight := flight, hotel := hotel, allActivities := acts,
      mustDoActivities := mustDos, preferences := prefs,
      startDate := some s, endDate := some (s + m + 1), returnFlight := rf } s m rfl rfl
  have hdates := current_roundTrip_dates
    { flight := flight, hotel := hotel, allActivities := acts,
      mustDoActivities := mustDos, preferences := prefs,
      startDate := some s, endDate := some (s + m + 1), returnFlight := rf } s m rfl rfl
  have hleg := legacy_roundTrip_length flight hotel acts rf s m
  refine ⟨hcur, hdates, hleg, ?_, ?_⟩
  · rw [hleg]
    omega
  · intro hlong
    rw [hcur, hleg]
    omega

/-- Witness for C10 at a concrete 9-date window (m = 7): the current copy
produces 9 days and the legacy copy 7. -/
theorem c10_legacy_current_divergence_witness :
    (resultDays (createDayByDayItinerary
      { startDate := some 0, endDate := some 8 })).length = 9 ∧
    (resultDays (legacyCreateDayByDayItinerary none none [] (some 0) (some 8) none)).length
      = 7 := by
  obtain ⟨hcur, _, hleg, _, hne⟩ :=
    c10_legacy_current_divergence none none [] [] none none 0 7
  exact ⟨hcur, hleg⟩

/-- Witness for C1 applied at a one-candidate pool within budget. -/
theorem c1_selector_within_budget_optimal_witness :
    combinationPrice c1Combo ≤ 0 ∧ c1Combo ∈ allCombinations [c1Cand] [] [] := by
  have hsel : selectBestCombination [c1Cand] [] [] 0 = some c1Combo := by
    norm_num [selectBestCombination, allCombinations, slotOptions, combinationPrice,
      c1Cand, c1Combo]
  have h := c1_selector_within_budget_optimal.1 [c1Cand] [] [] 0 c1Combo hsel
  exact ⟨h.1, h.2.1⟩

/-- Witness for C6 applied at the concrete preference-mismatch input. -/
theorem c6_filtered_empty_open_exploration_witness :
    filteredRegularActivitiesOf inpC6 = [] ∧
    (createDayByDayItinerary inpC6).isOk = true := by
  obtain ⟨ds, hok, _, _⟩ := c6_filtered_empty_open_exploration inpC6 0 1 rfl rfl
    (by decide) (by decide)
  exact ⟨by decide, by rw [hok]; rfl⟩
